import Mathlib

/-!
Verification of the joint source-target decoder (`src/models/joint.py`).

The development shallowly embeds the parts of the code that the verified
properties are about:

* the mask builder (`buffered_future_mask`, `local_mask`, the extended
  padding mask, and the mixed-attention mask concatenation) — embedded as
  entrywise functions over an explicit two-valued mask-entry type, since the
  source masks only ever hold the additive values `0` and `-inf`;
* the `process_source` decision of `JointSourceTargetDecoder.forward`;
* the configuration checks of `JointSourceTargetModel.build_model` and
  `base_architecture` — embedded as `Except`-returning functions;
* the encoder padding-mask computation of `JointSourceTargetEncoder.forward`;
* the attribute sets assigned by `JointSourceTargetDecoder.__init__` and read
  by `JointSourceTargetDecoder.forward`, used to check the construction-time
  configuration invariant;
* a minimal exact-arithmetic instance of the externally supplied attention
  primitive (modelled from the spec), used to exhibit the behaviour of the
  legacy layer phase, which the source runs without a self-attention mask.
-/

namespace Joint

/-- Attention-mask entries in the source are additive floats that are always
either `0` (position attendable) or `-inf` (position blocked); we embed them
as a two-valued type. -/
inductive MVal where
  | zero
  | ninf
deriving DecidableEq, Repr

/-- Addition of mask entries: `-inf` is absorbing, matching float addition on
the two values the source ever stores in a mask. -/
def MVal.add : MVal → MVal → MVal
  | .zero, .zero => .zero
  | _, _ => .ninf

/-- A mask is an entrywise function; row/column bounds are carried by the
theorems (a torch tensor of shape `rows × cols` is its entry function
restricted to `i < rows`, `j < cols`, and slicing is domain restriction,
which leaves entry values unchanged). -/
abbrev Mask := ℕ → ℕ → MVal

/-- Embeds `utils.fill_with_neg_inf(t)`: every entry is `-inf`. -/
def fill_with_neg_inf : Mask := fun _ _ => .ninf

/-- Embeds `torch.triu(m, d)`: keep entries with `j - i ≥ d`, zero the rest. -/
def triu (m : Mask) (d : ℤ) : Mask :=
  fun i j => if d ≤ (j : ℤ) - (i : ℤ) then m i j else .zero

/-- Embeds `torch.tril(m, d)`: keep entries with `j - i ≤ d`, zero the rest. -/
def tril (m : Mask) (d : ℤ) : Mask :=
  fun i j => if (j : ℤ) - (i : ℤ) ≤ d then m i j else .zero

/-- Entrywise mask addition (`mask1 + mask2` in the source). -/
def maskAdd (m1 m2 : Mask) : Mask := fun i j => (m1 i j).add (m2 i j)

/-- Embeds `JointSourceTargetDecoder.buffered_future_mask` (lines 483–489).
The cache is the size of the stored `_future_mask` tensor (`none` before the
first call); its contents are always `triu(fill_with_neg_inf(size, size), 1)`,
so the entry function of the returned `[:dim, :dim]` slice does not depend on
the cached size.  Returns the new cache size together with the sliced mask. -/
def buffered_future_mask (cacheSize : Option ℕ) (dim : ℕ) : ℕ × Mask :=
  let s0 := match cacheSize with
    | none => dim
    | some c => c
  let s1 := if s0 < dim then dim else s0
  (s1, triu fill_with_neg_inf 1)

/-- Embeds the diagonal-offset computation of
`JointSourceTargetDecoder.local_mask` for the non-causal case (line 502):
`((kernel+1)//2, (kernel+1)//2)` for odd kernels and
`(kernel//2, kernel//2 + 1)` for even kernels. -/
def localDiagOffsets (kernel : ℕ) : ℕ × ℕ :=
  if kernel % 2 = 1 then ((kernel + 1) / 2, (kernel + 1) / 2)
  else (kernel / 2, kernel / 2 + 1)

/-- Embeds `JointSourceTargetDecoder.local_mask` (lines 491–506).
`rows = tensor.size(0)`, `cols = rows` unless `tgt_len` is passed.  For the
causal single-row case the source sets `mask[0, -kernel:] = 0` on a
`-inf`-filled `1 × cols` tensor; python slice clamping makes the zeroed range
start at `cols - kernel` (at `0` when `kernel = 0`, since `[-0:]` is the whole
row).  Otherwise the result is `triu(fill, diag_u) + tril(fill, -diag_l)` with
`(diag_u, diag_l) = (1, kernel)` in the causal case and `localDiagOffsets`
in the non-causal case. -/
def local_mask (rows cols kernel : ℕ) (causal : Bool) : Mask :=
  if causal = true ∧ rows = 1 then
    fun _ j =>
      if (if kernel = 0 then 0 else cols - kernel) ≤ j then MVal.zero
      else MVal.ninf
  else
    let p := if causal = true then ((1 : ℕ), kernel) else localDiagOffsets kernel
    maskAdd (triu fill_with_neg_inf (p.1 : ℤ)) (tril fill_with_neg_inf (-(p.2 : ℤ)))

/-- Incremental-decoding state: a mapping from sub-layer identity to cached
tensors.  Only its emptiness is consulted by the decision embedded here, so
the cached values are abstracted to naturals; the keys are strings as in the
source (fairseq keys the dictionary by module name). -/
abbrev IncState := List (String × ℕ)

/-- Embeds line 351 of `JointSourceTargetDecoder.forward`:
`process_source = self.mixed_attention and (incremental_state is None or
len(incremental_state) == 0)`.  This boolean gates every source-branch
execution in `forward` (lines 368, 389 and 419). -/
def process_source (mixedAttention : Bool) (incrementalState : Option IncState) : Bool :=
  mixedAttention && (incrementalState.isNone || (incrementalState.getD []).length == 0)

/-- Embeds lines 377–383 of `JointSourceTargetDecoder.forward`: the source
padding mask is extended with a `(batch, tgt_len)` all-`False` block
(`new_zeros`) and concatenated along the time axis. -/
def padding_concat (sourceMask : List (List Bool)) (tgtLen : ℕ) : List (List Bool) :=
  sourceMask.map (fun r => r ++ List.replicate tgtLen false)

/-- Number of `True` (pad) entries of a boolean matrix. -/
def countTrue (m : List (List Bool)) : ℕ := (m.map (fun r => r.count true)).sum

/-- Embeds lines 413–414 of `JointSourceTargetDecoder.forward`: the target
attention mask (rows = query positions) is left-padded with a
`(rows, source.size(0))` zero block and concatenated along the key axis. -/
def mixed_self_attn_mask (targetMask : List (List MVal)) (srcLen : ℕ) : List (List MVal) :=
  targetMask.map (fun row => List.replicate srcLen MVal.zero ++ row)

/-- Embeds lines 412–416 of `JointSourceTargetDecoder.forward`: the mask
actually applied as `self_attn_mask` is the left-padded concatenation when a
target mask was computed and `mixed_attention` is set, otherwise the target
mask itself (possibly `None`). -/
def self_attn_mask_select (mixedAttention : Bool) (targetMask : Option (List (List MVal)))
    (srcLen : ℕ) : Option (List (List MVal)) :=
  match targetMask with
  | some tm => if mixedAttention then some (mixed_self_attn_mask tm srcLen) else some tm
  | none => none

/-- Configuration arguments consulted by `JointSourceTargetModel.build_model`
and by the kernel-list checks of `base_architecture`.  Dictionaries are
abstracted to identifiers compared for equality, as the source compares
`src_dict != tgt_dict`. -/
structure BuildArgs where
  shareAllEmbeddings : Bool
  srcDict : ℕ
  tgtDict : ℕ
  encoderEmbedDim : ℕ
  decoderEmbedDim : ℕ
  encoderEmbedPath : Option String
  decoderEmbedPath : Option String
  encoderKernelSizeList : List ℕ
  encoderLayers : ℕ
  decoderKernelSizeList : List ℕ
  decoderLayers : ℕ
deriving DecidableEq, Repr

/-- Embeds the kernel-size-list handling of `base_architecture`
(lines 841–846): a length-1 list is replicated to the layer count
(`list * layers`), then the length must equal the layer count or the
assertion fails. -/
def kernelListCheck (l : List ℕ) (layers : ℕ) (msg : String) : Except String (List ℕ) :=
  let l2 := if l.length = 1 then (List.replicate layers l).flatten else l
  if l2.length = layers then .ok l2 else .error msg

/-- Embeds the kernel-list assertions of `base_architecture` (architecture
resolution), encoder list first, then decoder list, as in the source. -/
def base_architecture (a : BuildArgs) : Except String Unit :=
  match kernelListCheck a.encoderKernelSizeList a.encoderLayers
      "encoder_kernel_size_list does not match encoder_layers" with
  | .error e => .error e
  | .ok _ =>
    match kernelListCheck a.decoderKernelSizeList a.decoderLayers
        "decoder_kernel_size_list does not match decoder_layers" with
    | .error e => .error e
    | .ok _ => .ok ()

/-- Embeds the embedding-sharing checks of
`JointSourceTargetModel.build_model` (lines 116–131): with
`share_all_embeddings` the dictionaries must coincide, the embedding
dimensions must match, and a decoder embedding path must equal the encoder
one; without `share_all_embeddings` a `RuntimeError` is raised. -/
def share_embedding_checks (a : BuildArgs) : Except String Unit :=
  if a.shareAllEmbeddings = true then
    if a.srcDict ≠ a.tgtDict then
      .error "share-all-embeddings requires a joined dictionary"
    else if a.encoderEmbedDim ≠ a.decoderEmbedDim then
      .error "share-all-embeddings requires encoder-embed-dim to match decoder-embed-dim"
    else if a.decoderEmbedPath ≠ none ∧ a.decoderEmbedPath ≠ a.encoderEmbedPath then
      .error "share-all-embeddings not compatible with decoder-embed-path"
    else .ok ()
  else .error "the joint_source_target model requires share-all-embeddings"

/-- Embeds `JointSourceTargetModel.build_model` (lines 92–135): it first runs
`base_architecture(args)` (line 97), then the embedding-sharing checks; any
raised error aborts construction. -/
def build_model (a : BuildArgs) : Except String Unit :=
  match base_architecture a with
  | .error e => .error e
  | .ok _ => share_embedding_checks a

/-- Embeds lines 196–199 of `JointSourceTargetEncoder.forward`: the padding
mask is `src_tokens.eq(padding_idx)`, replaced by `None` when it has no true
entry. -/
def encoder_padding_mask (srcTokens : List (List ℕ)) (padIdx : ℕ) :
    Option (List (List Bool)) :=
  let m := srcTokens.map (fun r => r.map (fun t => t == padIdx))
  if m.any (fun r => r.any id) then some m else none

/-- Names of the instance attributes assigned by
`JointSourceTargetDecoder.__init__` (lines 245–298), including the
conditionally assigned ones (`embed_out`, `layer_norm`) and those set by the
base classes (`dictionary`, `onnx_trace`, `training`). -/
def decoder_init_assigned_attrs : List String :=
  ["dictionary", "onnx_trace", "training", "dropout", "share_input_output_embed",
   "transformer_kernel_size_list", "max_target_positions", "embed_tokens",
   "embed_scale", "project_in_dim", "embed_positions", "embed_language", "layers",
   "adaptive_softmax", "project_out_dim", "embed_out", "version", "normalize",
   "layer_norm"]

/-- Names of the instance attributes read by
`JointSourceTargetDecoder.forward` (lines 300–475). -/
def decoder_forward_read_attrs : List String :=
  ["embed_positions", "embed_scale", "embed_tokens", "project_in_dim",
   "embed_language", "dropout", "mixed_attention", "interleaved", "target_layers",
   "source_layers", "transformer_kernel_size_list", "transformer_layers", "layers",
   "normalize", "layer_norm", "adaptive_softmax", "share_input_output_embed",
   "embed_out", "project_out_dim"]

/-- The layer-configuration attributes that the claim says are fixed by the
constructor: the interleaved flag, the mixed-attention flag and the three
layer collections consulted by `forward`. -/
def decoder_config_attrs : List String :=
  ["interleaved", "mixed_attention", "source_layers", "target_layers",
   "transformer_layers"]

/-- From lines 447–453 of `JointSourceTargetDecoder.forward`: the legacy-phase
layers are called as `layer(x, ..., incremental_state)` with no
`self_attn_mask` argument, so the self-attention mask they receive is `None`
in full-sequence mode as well as in incremental mode. -/
def legacy_self_attn_mask : Option Mask := none

/-- Key positions a self-attention query row `i` may attend under an optional
additive mask over `n` keys: all of them when the mask is `None`, otherwise
those whose entry is not `-inf`. -/
def attendable (mask : Option Mask) (n i : ℕ) : List ℕ :=
  (List.range n).filter fun j =>
    match mask with
    | none => true
    | some m => m i j != MVal.ninf

/-- Mean of a list of rationals (`0` for the empty list). -/
def listAvg (l : List ℚ) : ℚ := l.sum / l.length

/-- Modelled from the spec: the externally supplied attention primitive
(spec §2, "Attention Layer ...: multi-head self/cross attention with
incremental key/value caching"; the source imports it as
`TransformerDecoderLayer` / `MultiheadAttention` from the surrounding
framework, it is not part of this repository).  We take the simplest member
of that family — single-head attention over one-dimensional values with
uniform weights over the attendable key positions — which suffices to compare
full-sequence and incremental execution of the orchestrator: in full-sequence
mode each query `i` averages the values at the positions allowed by the
additive mask. -/
def attn_full (vals : List ℚ) (mask : Option Mask) : List ℚ :=
  (List.range vals.length).map fun i =>
    listAvg ((attendable mask vals.length i).map fun j => vals.getD j 0)

/-- Modelled from the spec: one incremental step of the same attention
primitive appends the new value to the key/value cache and attends over all
cached positions (no mask is passed in incremental mode). -/
def attn_step (cache : List ℚ) (v : ℚ) : List ℚ × ℚ :=
  let cache2 := cache ++ [v]
  (cache2, listAvg cache2)

/-- Runs the incremental attention primitive over a sequence, threading the
cache through the steps exactly as `forward` threads `incremental_state`. -/
def attn_incremental_go : List ℚ → List ℚ → List ℚ
  | _, [] => []
  | cache, v :: rest =>
    let s := attn_step cache v
    s.2 :: attn_incremental_go s.1 rest

/-- Incremental run over a full sequence starting from an empty cache. -/
def attn_incremental (vals : List ℚ) : List ℚ := attn_incremental_go [] vals

/-- The legacy-phase layer in full-sequence mode as the source calls it:
attention with the mask of lines 447–453, which is `None`. -/
def legacy_layer_full (vals : List ℚ) : List ℚ := attn_full vals legacy_self_attn_mask

/-! Helper lemmas. -/

theorem MVal.add_eq_zero (a b : MVal) :
    MVal.add a b = MVal.zero ↔ a = MVal.zero ∧ b = MVal.zero := by
  cases a <;> cases b <;> simp [MVal.add]

/-- A banded mask built as `triu(fill, du) + tril(fill, -dl)` is attendable
exactly strictly inside the band `-dl < j - i < du`. -/
theorem band_zero_iff (du dl : ℤ) (i j : ℕ) :
    maskAdd (triu fill_with_neg_inf du) (tril fill_with_neg_inf (-dl)) i j = MVal.zero
      ↔ ((j : ℤ) - (i : ℤ) < du ∧ (i : ℤ) - (j : ℤ) < dl) := by
  simp only [maskAdd, triu, tril, fill_with_neg_inf]
  split_ifs with h1 h2 h2 <;> simp [MVal.add] <;> omega

/-! Claim theorems. -/

/-- C4: for every sequence length `n ≥ 1`, the causal mask returned by
`buffered_future_mask` — as a slice of the lazily grown cache, for any prior
cache state — has entry `(i, j)` equal to `0` when `j ≤ i` and `-inf` when
`j > i`, and the cache size never shrinks and covers `n`. -/
theorem buffered_future_mask_spec (cache : Option ℕ) (n i j : ℕ)
    (hn : 1 ≤ n) (hi : i < n) (hj : j < n) :
    ((buffered_future_mask cache n).2 i j
        = if j ≤ i then MVal.zero else MVal.ninf)
    ∧ (∀ c, cache = some c → c ≤ (buffered_future_mask cache n).1)
    ∧ n ≤ (buffered_future_mask cache n).1 := by
  refine ⟨?_, ?_, ?_⟩
  · simp only [buffered_future_mask, triu, fill_with_neg_inf]
    by_cases h : j ≤ i
    · rw [if_neg (by omega), if_pos h]
    · rw [if_pos (by omega), if_neg h]
  · intro c hc
    subst hc
    simp only [buffered_future_mask]
    split_ifs <;> omega
  · cases cache <;> simp only [buffered_future_mask] <;> split_ifs <;> omega

theorem buffered_future_mask_spec_witness :
    (((buffered_future_mask (some 2) 3).2 2 1
        = if 1 ≤ 2 then MVal.zero else MVal.ninf)
      ∧ (∀ c, some 2 = some c → c ≤ (buffered_future_mask (some 2) 3).1)
      ∧ 3 ≤ (buffered_future_mask (some 2) 3).1) :=
  buffered_future_mask_spec (some 2) 3 2 1 (by decide) (by decide) (by decide)

/-- The non-causal local mask is the band given by `localDiagOffsets`. -/
theorem local_mask_noncausal_eq (rows cols k i j : ℕ) :
    local_mask rows cols k false i j = MVal.zero ↔
      ((j : ℤ) - (i : ℤ) < ((localDiagOffsets k).1 : ℤ)
        ∧ (i : ℤ) - (j : ℤ) < ((localDiagOffsets k).2 : ℤ)) := by
  rw [local_mask, if_neg (fun h => absurd h.1 (by decide))]
  show maskAdd (triu fill_with_neg_inf (((localDiagOffsets k).1 : ℕ) : ℤ))
      (tril fill_with_neg_inf (-(((localDiagOffsets k).2 : ℕ) : ℤ))) i j = MVal.zero ↔ _
  exact band_zero_iff _ _ i j

/-- C5: for the causal local mask with window `k`: with query length `n > 1`
each query `i` has zero entries at exactly the `min (i+1) k` key positions
ending at `i`; with `n = 1` (single-step incremental case) the `1 × cols` mask
has zero entries at exactly the last `k` key positions. -/
theorem local_mask_causal_spec (n cols k i : ℕ)
    (hn : 1 < n) (hi : i < n) (hk : 1 ≤ k) (hkc : k ≤ cols) :
    (∀ j, j < n → (local_mask n n k true i j = MVal.zero ↔ (j ≤ i ∧ i < j + k)))
    ∧ ((Finset.range n).filter
        (fun j => local_mask n n k true i j = MVal.zero)).card = min (i + 1) k
    ∧ (∀ j, j < cols → (local_mask 1 cols k true 0 j = MVal.zero ↔ cols - k ≤ j))
    ∧ ((Finset.range cols).filter
        (fun j => local_mask 1 cols k true 0 j = MVal.zero)).card = k := by
  have hcond : ¬ ((true : Bool) = true ∧ n = 1) := by rintro ⟨-, h⟩; omega
  have hchar : ∀ j, (local_mask n n k true i j = MVal.zero) ↔ (j ≤ i ∧ i < j + k) := by
    intro j
    rw [local_mask, if_neg hcond]
    show maskAdd (triu fill_with_neg_inf (((1 : ℕ) : ℤ)))
        (tril fill_with_neg_inf (-((k : ℕ) : ℤ))) i j = MVal.zero ↔ _
    rw [band_zero_iff]
    omega
  have hchar2 : ∀ j, (local_mask 1 cols k true 0 j = MVal.zero) ↔ cols - k ≤ j := by
    intro j
    rw [local_mask, if_pos ⟨rfl, rfl⟩]
    show (if (if k = 0 then 0 else cols - k) ≤ j then MVal.zero else MVal.ninf)
        = MVal.zero ↔ _
    rw [if_neg (show ¬ k = 0 by omega)]
    split_ifs with h
    · simp [h]
    · simp [h]
  refine ⟨fun j _ => hchar j, ?_, fun j _ => hchar2 j, ?_⟩
  · have hset : ((Finset.range n).filter
        (fun j => local_mask n n k true i j = MVal.zero)) = Finset.Icc (i + 1 - k) i := by
      ext j
      simp only [Finset.mem_filter, Finset.mem_range, Finset.mem_Icc, hchar]
      omega
    rw [hset, Nat.card_Icc]
    omega
  · have hset : ((Finset.range cols).filter
        (fun j => local_mask 1 cols k true 0 j = MVal.zero)) = Finset.Ico (cols - k) cols := by
      ext j
      simp only [Finset.mem_filter, Finset.mem_range, Finset.mem_Ico, hchar2]
      omega
    rw [hset, Nat.card_Ico]
    omega

theorem local_mask_causal_spec_witness :
    ((∀ j, j < 3 → (local_mask 3 3 2 true 1 j = MVal.zero ↔ (j ≤ 1 ∧ 1 < j + 2)))
      ∧ ((Finset.range 3).filter
          (fun j => local_mask 3 3 2 true 1 j = MVal.zero)).card = min (1 + 1) 2
      ∧ (∀ j, j < 4 → (local_mask 1 4 2 true 0 j = MVal.zero ↔ 4 - 2 ≤ j))
      ∧ ((Finset.range 4).filter
          (fun j => local_mask 1 4 2 true 0 j = MVal.zero)).card = 2) :=
  local_mask_causal_spec 3 4 2 1 (by decide) (by decide) (by decide) (by decide)

/-- C6: the non-causal local window is split `(kernel+1)/2` on each side for
odd kernels and `kernel/2` above versus `kernel/2 + 1` below for even
kernels; in particular `kernel = 4` gives offsets `diag_u = 2`, `diag_l = 3`. -/
theorem local_mask_noncausal_spec (rows cols k1 k2 i j : ℕ)
    (hodd : k1 % 2 = 1) (heven : k2 % 2 = 0) :
    (local_mask rows cols k1 false i j = MVal.zero ↔
      ((j : ℤ) - (i : ℤ) < (((k1 + 1) / 2 : ℕ) : ℤ)
        ∧ (i : ℤ) - (j : ℤ) < (((k1 + 1) / 2 : ℕ) : ℤ)))
    ∧ (local_mask rows cols k2 false i j = MVal.zero ↔
      ((j : ℤ) - (i : ℤ) < ((k2 / 2 : ℕ) : ℤ)
        ∧ (i : ℤ) - (j : ℤ) < ((k2 / 2 + 1 : ℕ) : ℤ)))
    ∧ localDiagOffsets 4 = (2, 3) := by
  refine ⟨?_, ?_, by decide⟩
  · have h1 := local_mask_noncausal_eq rows cols k1 i j
    rw [localDiagOffsets, if_pos hodd] at h1
    exact h1
  · have h2 := local_mask_noncausal_eq rows cols k2 i j
    rw [localDiagOffsets, if_neg (by omega)] at h2
    exact h2

theorem local_mask_noncausal_spec_witness :
    ((local_mask 6 6 3 false 2 1 = MVal.zero ↔
      ((1 : ℤ) - (2 : ℤ) < (((3 + 1) / 2 : ℕ) : ℤ)
        ∧ (2 : ℤ) - (1 : ℤ) < (((3 + 1) / 2 : ℕ) : ℤ)))
    ∧ (local_mask 6 6 4 false 2 1 = MVal.zero ↔
      ((1 : ℤ) - (2 : ℤ) < ((4 / 2 : ℕ) : ℤ)
        ∧ (2 : ℤ) - (1 : ℤ) < ((4 / 2 + 1 : ℕ) : ℤ)))
    ∧ localDiagOffsets 4 = (2, 3)) :=
  local_mask_noncausal_spec 6 6 3 4 2 1 (by decide) (by decide)

/-- C3: the source branch gate of `forward` is true iff `mixed_attention`
holds and the incremental state is `None` or empty; in particular a first
incremental call with an empty mapping processes the source and any call with
a non-empty mapping does not. -/
theorem process_source_spec :
    (∀ (m : Bool) (inc : Option IncState),
      process_source m inc = true ↔ (m = true ∧ (inc = none ∨ inc = some [])))
    ∧ process_source true (some []) = true
    ∧ (∀ (m : Bool) (e : String × ℕ) (st : IncState),
        process_source m (some (e :: st)) = false) := by
  refine ⟨?_, rfl, ?_⟩
  · intro m inc
    cases m <;> cases inc <;> simp [process_source, List.length_eq_zero]
  · intro m e st
    cases m <;> simp [process_source]

/-- C7: with mixed attention, the concatenated self-attention padding mask
keeps exactly the `P` pad entries of the source padding mask and ends in
`tgt_len` all-false columns in every row. -/
theorem padding_concat_spec (src : List (List Bool)) (L : ℕ) (row : List Bool)
    (hrow : row ∈ padding_concat src L) :
    countTrue (padding_concat src L) = countTrue src
    ∧ L ≤ row.length
    ∧ row.drop (row.length - L) = List.replicate L false := by
  obtain ⟨r, hr, rfl⟩ := List.mem_map.1 hrow
  have hcnt : ∀ r' : List Bool,
      (r' ++ List.replicate L false).count true = r'.count true := by
    intro r'
    rw [List.count_append]
    have h0 : (List.replicate L false).count true = 0 := by
      rw [List.count_eq_zero]
      simp [List.mem_replicate]
    omega
  refine ⟨?_, ?_, ?_⟩
  · simp only [countTrue, padding_concat, List.map_map, Function.comp]
    congr 1
    exact List.map_congr_left fun r' _ => hcnt r'
  · simp only [List.length_append, List.length_replicate]
    omega
  · exact List.drop_left' (by simp only [List.length_append, List.length_replicate]; omega)

theorem padding_concat_spec_witness :
    (countTrue (padding_concat [[true, false], [false]] 2)
        = countTrue [[true, false], [false]]
      ∧ 2 ≤ ([true, false, false, false] : List Bool).length
      ∧ ([true, false, false, false] : List Bool).drop
          (([true, false, false, false] : List Bool).length - 2)
          = List.replicate 2 false) :=
  padding_concat_spec [[true, false], [false]] 2 [true, false, false, false] (by decide)

/-- Entries of a replicated list read through `getD` inside the bound. -/
theorem getD_replicate_of_lt (n m : ℕ) (a d : MVal) (h : m < n) :
    (List.replicate n a).getD m d = a := by
  induction n generalizing m with
  | zero => omega
  | succ n ih =>
    cases m with
    | zero => rfl
    | succ m => exact ih m (by omega)

/-- C8: with mixed attention, whenever a target-side attention mask is
computed, the self-attention mask actually applied is that mask left-padded
with an all-zero block whose width is the current source length, so every
source position is visible to every target query and the key dimension is
exactly the concatenated source+target length. -/
theorem mixed_self_attn_mask_spec (tm : List (List MVal)) (srcLen : ℕ) (row : List MVal)
    (hrow : row ∈ mixed_self_attn_mask tm srcLen) :
    self_attn_mask_select true (some tm) srcLen = some (mixed_self_attn_mask tm srcLen)
    ∧ row.take srcLen = List.replicate srcLen MVal.zero
    ∧ (∀ jj, jj < srcLen → row.getD jj MVal.ninf = MVal.zero)
    ∧ (∃ tr, tr ∈ tm ∧ row = List.replicate srcLen MVal.zero ++ tr
        ∧ row.length = srcLen + tr.length) := by
  obtain ⟨tr, htr, rfl⟩ := List.mem_map.1 hrow
  refine ⟨rfl, ?_, ?_, tr, htr, rfl, ?_⟩
  · exact List.take_left' (List.length_replicate _ _)
  · intro jj hjj
    rw [List.getD_append _ _ _ _ (by simpa using hjj)]
    exact getD_replicate_of_lt _ _ _ _ hjj
  · simp only [List.length_append, List.length_replicate]

theorem mixed_self_attn_mask_spec_witness :
    (self_attn_mask_select true (some [[MVal.ninf, MVal.zero]]) 2
        = some (mixed_self_attn_mask [[MVal.ninf, MVal.zero]] 2)
      ∧ ([MVal.zero, MVal.zero, MVal.ninf, MVal.zero] : List MVal).take 2
          = List.replicate 2 MVal.zero
      ∧ (∀ jj, jj < 2 →
          ([MVal.zero, MVal.zero, MVal.ninf, MVal.zero] : List MVal).getD jj MVal.ninf
            = MVal.zero)
      ∧ (∃ tr, tr ∈ [[MVal.ninf, MVal.zero]]
          ∧ ([MVal.zero, MVal.zero, MVal.ninf, MVal.zero] : List MVal)
              = List.replicate 2 MVal.zero ++ tr
          ∧ ([MVal.zero, MVal.zero, MVal.ninf, MVal.zero] : List MVal).length
              = 2 + tr.length)) :=
  mixed_self_attn_mask_spec [[MVal.ninf, MVal.zero]] 2
    [MVal.zero, MVal.zero, MVal.ninf, MVal.zero] (by decide)

/-- C2 (code bug): `forward` consults the attributes `interleaved`,
`mixed_attention`, `source_layers`, `target_layers` and `transformer_layers`,
but `__init__` assigns none of them, so they do not exist on a constructed
`JointSourceTargetDecoder` and the first `forward` call raises
`AttributeError` instead of reading construction-time values. -/
theorem decoder_config_attrs_missing :
    ("interleaved" ∈ decoder_forward_read_attrs
        ∧ "interleaved" ∉ decoder_init_assigned_attrs)
    ∧ ("mixed_attention" ∈ decoder_forward_read_attrs
        ∧ "mixed_attention" ∉ decoder_init_assigned_attrs)
    ∧ ("source_layers" ∈ decoder_forward_read_attrs
        ∧ "source_layers" ∉ decoder_init_assigned_attrs)
    ∧ ("target_layers" ∈ decoder_forward_read_attrs
        ∧ "target_layers" ∉ decoder_init_assigned_attrs)
    ∧ ("transformer_layers" ∈ decoder_forward_read_attrs
        ∧ "transformer_layers" ∉ decoder_init_assigned_attrs)
    ∧ (∀ a, a ∈ decoder_config_attrs →
        a ∈ decoder_forward_read_attrs ∧ a ∉ decoder_init_assigned_attrs) := by
  decide

/-- C9 counterexample: a kernel-size list of length 1 that disagrees with the
configured layer count (here `[9]` against 6 decoder layers) is silently
replicated by `base_architecture` and model construction succeeds, so the
claim that any disagreeing kernel-list length fails at
architecture-resolution time is false as stated. -/
theorem kernel_singleton_list_accepted :
    build_model ⟨true, 0, 0, 512, 512, none, none,
        [3, 7, 15, 31, 31, 31, 31], 7, [9], 6⟩ = .ok ()
    ∧ ([9] : List ℕ).length ≠ 6 := by
  exact ⟨rfl, by decide⟩

/-- C9 (amended): construction fails with an error when
`share_all_embeddings` is requested with distinct dictionaries, or with
mismatched encoder/decoder embedding dimensions, or when
`share_all_embeddings` is absent; and a kernel-size list of length other
than 1 whose length disagrees with the configured layer count fails inside
`base_architecture` (architecture resolution), not at forward time — a
length-1 list is instead replicated to the layer count. -/
theorem config_errors_spec (a b c d : BuildArgs)
    (ha1 : a.shareAllEmbeddings = true) (ha2 : a.srcDict ≠ a.tgtDict)
    (hb1 : b.shareAllEmbeddings = true) (hb2 : b.encoderEmbedDim ≠ b.decoderEmbedDim)
    (hc : c.shareAllEmbeddings = false)
    (hd1 : d.decoderKernelSizeList.length ≠ 1)
    (hd2 : d.decoderKernelSizeList.length ≠ d.decoderLayers) :
    (∃ e, build_model a = .error e)
    ∧ (∃ e, build_model b = .error e)
    ∧ (∃ e, build_model c = .error e)
    ∧ (∃ e, base_architecture d = .error e) := by
  have hshare : ∀ x : BuildArgs, (∃ e, share_embedding_checks x = .error e) →
      ∃ e, build_model x = .error e := by
    intro x hx
    unfold build_model
    cases hba : base_architecture x with
    | error e => exact ⟨e, rfl⟩
    | ok u => simpa using hx
  refine ⟨?_, ?_, ?_, ?_⟩
  · apply hshare
    unfold share_embedding_checks
    rw [if_pos ha1, if_pos ha2]
    exact ⟨_, rfl⟩
  · apply hshare
    unfold share_embedding_checks
    rw [if_pos hb1]
    by_cases hbd : b.srcDict ≠ b.tgtDict
    · rw [if_pos hbd]; exact ⟨_, rfl⟩
    · rw [if_neg hbd, if_pos hb2]; exact ⟨_, rfl⟩
  · apply hshare
    unfold share_embedding_checks
    rw [if_neg (by simp [hc])]
    exact ⟨_, rfl⟩
  · unfold base_architecture
    cases henc : kernelListCheck d.encoderKernelSizeList d.encoderLayers
        "encoder_kernel_size_list does not match encoder_layers" with
    | error e => exact ⟨e, rfl⟩
    | ok u =>
      have hdec : kernelListCheck d.decoderKernelSizeList d.decoderLayers
          "decoder_kernel_size_list does not match decoder_layers"
          = .error "decoder_kernel_size_list does not match decoder_layers" := by
        unfold kernelListCheck
        rw [if_neg hd1, if_neg hd2]
      rw [hdec]
      exact ⟨_, rfl⟩

theorem config_errors_spec_witness :
    ((∃ e, build_model ⟨true, 0, 1, 512, 512, none, none, [3], 7, [5], 6⟩ = .error e)
      ∧ (∃ e, build_model ⟨true, 0, 0, 512, 256, none, none, [3], 7, [5], 6⟩ = .error e)
      ∧ (∃ e, build_model ⟨false, 0, 0, 512, 512, none, none, [3], 7, [5], 6⟩ = .error e)
      ∧ (∃ e, base_architecture ⟨true, 0, 0, 512, 512, none, none,
          [3, 7, 15, 31, 31, 31, 31], 7, [3, 5], 6⟩ = .error e)) :=
  config_errors_spec
    ⟨true, 0, 1, 512, 512, none, none, [3], 7, [5], 6⟩
    ⟨true, 0, 0, 512, 256, none, none, [3], 7, [5], 6⟩
    ⟨false, 0, 0, 512, 512, none, none, [3], 7, [5], 6⟩
    ⟨true, 0, 0, 512, 512, none, none, [3, 7, 15, 31, 31, 31, 31], 7, [3, 5], 6⟩
    rfl (by decide) rfl (by decide) rfl (by decide) (by decide)

/-- C10: the encoder returns `padding_mask = None` iff no source token equals
the padding index; otherwise the returned matrix is `src_tokens.eq(pad)` and
contains at least one true entry. -/
theorem encoder_padding_mask_spec (src src2 : List (List ℕ)) (pad : ℕ)
    (m : List (List Bool)) (hm : encoder_padding_mask src pad = some m) :
    m = src.map (fun r => r.map (fun t => t == pad))
    ∧ (∃ r, r ∈ m ∧ true ∈ r)
    ∧ ¬ (∀ r ∈ src, ∀ t ∈ r, t ≠ pad)
    ∧ (encoder_padding_mask src2 pad = none ↔ ∀ r ∈ src2, ∀ t ∈ r, t ≠ pad) := by
  have hany : ∀ s : List (List ℕ),
      ((s.map (fun r => r.map (fun t => t == pad))).any (fun r => r.any id) = true
        ↔ ¬ ∀ r ∈ s, ∀ t ∈ r, t ≠ pad) := by
    intro s
    simp only [List.any_eq_true, List.mem_map, id]
    constructor
    · rintro ⟨r, ⟨r0, hr0, rfl⟩, b, hb, hbt⟩ hall
      obtain ⟨t, ht, rfl⟩ := List.mem_map.1 hb
      exact hall r0 hr0 t ht (by simpa using hbt)
    · intro hnall
      push_neg at hnall
      obtain ⟨r0, hr0, t, ht, htp⟩ := hnall
      exact ⟨r0.map (fun t => t == pad), ⟨r0, hr0, rfl⟩,
        (t == pad), List.mem_map_of_mem _ ht, by simpa using htp⟩
  simp only [encoder_padding_mask] at hm
  by_cases h : ((src.map (fun r => r.map (fun t => t == pad))).any (fun r => r.any id))
      = true
  · rw [if_pos h] at hm
    obtain rfl : _ = m := Option.some_injective _ hm
    refine ⟨rfl, ?_, (hany src).1 h, ?_⟩
    · simp only [List.any_eq_true, id] at h
      obtain ⟨r, hr, b, hb, hbt⟩ := h
      exact ⟨r, hr, by simpa [hbt] using hb⟩
    · simp only [encoder_padding_mask]
      by_cases h2 : ((src2.map (fun r => r.map (fun t => t == pad))).any
          (fun r => r.any id)) = true
      · rw [if_pos h2]
        simp only [reduceCtorEq, false_iff]
        exact (hany src2).1 h2
      · rw [if_neg h2]
        have hall : ∀ r ∈ src2, ∀ t ∈ r, t ≠ pad := by
          by_contra hcon
          exact h2 ((hany src2).2 hcon)
        simpa using hall
  · rw [if_neg h] at hm
    exact absurd hm (by simp)

theorem encoder_padding_mask_spec_witness :
    (([[false, true], [false, false]] : List (List Bool))
        = [[0, 1], [0, 0]].map (fun r => r.map (fun t => t == 1))
      ∧ (∃ r, r ∈ ([[false, true], [false, false]] : List (List Bool)) ∧ true ∈ r)
      ∧ ¬ (∀ r ∈ [[0, 1], [0, 0]], ∀ t ∈ r, t ≠ 1)
      ∧ (encoder_padding_mask [[2, 3]] 1 = none ↔ ∀ r ∈ [[2, 3]], ∀ t ∈ r, t ≠ 1)) :=
  encoder_padding_mask_spec [[0, 1], [0, 0]] [[2, 3]] 1
    [[false, true], [false, false]] (by decide)

/-- C1 (code bug): the legacy-phase layers are run without a self-attention
mask (`legacy_self_attn_mask = none`, lines 447–453), so in full-sequence
mode every position attends to every position, including future ones, while
an incremental run can only attend cached past positions.  For the attention
primitive (modelled from the spec) on values `[0, 1]`, the full run yields
`1/2` at position 0 — it depends on the future token — while the incremental
run yields `0`, so the two runs do not agree at position 0 and the
incremental-equivalence property fails. -/
theorem legacy_phase_not_incremental_consistent :
    legacy_layer_full [0, 1] ≠ attn_incremental [0, 1]
    ∧ (legacy_layer_full [0, 1]).getD 0 0 = 1 / 2
    ∧ (attn_incremental [0, 1]).getD 0 1 = 0
    ∧ attendable legacy_self_attn_mask 2 0 = [0, 1] := by
  have hfull : legacy_layer_full [0, 1] = [listAvg [0, 1], listAvg [0, 1]] := rfl
  have hincr : attn_incremental [0, 1] = [listAvg [0], listAvg [0, 1]] := rfl
  have havg2 : listAvg [0, 1] = 1 / 2 := by norm_num [listAvg]
  have havg1 : listAvg [0] = 0 := by norm_num [listAvg]
  refine ⟨?_, ?_, ?_, rfl⟩
  · rw [hfull, hincr, havg1, havg2]
    norm_num
  · rw [hfull]
    simp [List.getD_cons_zero, havg2]
  · rw [hincr]
    simp [List.getD_cons_zero, havg1]

end Joint
